import Mathlib

/-!
Verification of the agent-session orchestrator of the obsidian-claude-code
plugin, a shallow embedding of `src/agent/AgentController.ts` (error
classification, output truncation, rate limiting, the permission handler
with its hard-deny shell patterns, subagent reconciliation, and end-of-turn
tool-call finalization) and of the pure classification helpers in
`src/utils/toolPermissions.ts`.

Strings are modelled as Lean `String`s; character positions are code points.
JS `toLowerCase` is modelled as ASCII case folding, which agrees with the
JS behaviour on every keyword the classifier compares against.
-/

/-- JS-style substring helper: does the first list start with the second? -/
def listBeginsWith : List Char → List Char → Bool
  | _, [] => true
  | [], _ :: _ => false
  | a :: as, b :: bs => a == b && listBeginsWith as bs

/-- JS `haystack.includes(needle)` on char lists. -/
def listIncludes : List Char → List Char → Bool
  | [], n => listBeginsWith [] n
  | l@(_ :: rest), n => listBeginsWith l n || listIncludes rest n

/-- JS `haystack.includes(needle)` on strings. -/
def strIncludes (h n : String) : Bool :=
  listIncludes h.data n.data

/-- ASCII case folding for one character (model of JS `toLowerCase` on the
ASCII range). -/
def asciiLower (c : Char) : Char :=
  if c.isUpper then Char.ofNat (c.toNat + 32) else c

/-- Model of JS `msg.toLowerCase()` (ASCII case folding). -/
def strToLower (s : String) : String :=
  String.mk (s.data.map asciiLower)

/-- Error taxonomy from `src/types.ts`: `ErrorType`. -/
inductive ErrorType
  | transient
  | auth
  | network
  | permanent
deriving DecidableEq, Repr

/-- Model of `classifyError` (AgentController.ts lines 59-83), as a function
of the error's message text. Each `if` mirrors one line of the source. -/
def classifyError (message : String) : ErrorType :=
  let msg := strToLower message
  if strIncludes msg "process exited with code 1" then .transient
  else if strIncludes msg "econnreset" then .transient
  else if strIncludes msg "timeout" then .transient
  else if strIncludes msg "rate limit" || strIncludes msg "429" then .transient
  else if strIncludes msg "socket hang up" then .transient
  else if strIncludes msg "etimedout" then .transient
  else if strIncludes msg "unauthorized" || strIncludes msg "401" then .auth
  else if strIncludes msg "invalid api key" then .auth
  else if strIncludes msg "forbidden" || strIncludes msg "403" then .auth
  else if strIncludes msg "authentication" then .auth
  else if strIncludes msg "network" || strIncludes msg "enotfound" then .network
  else if strIncludes msg "dns" || strIncludes msg "getaddrinfo" then .network
  else if strIncludes msg "econnrefused" then .network
  else .permanent

/-- The transient keyword set, read off the spec's description of the
classifier ("fixed keyword sets per category"). -/
def transientKeywords : List String :=
  ["process exited with code 1", "econnreset", "timeout", "rate limit",
   "429", "socket hang up", "etimedout"]

/-- The auth keyword set. -/
def authKeywords : List String :=
  ["unauthorized", "401", "invalid api key", "forbidden", "403",
   "authentication"]

/-- The network keyword set. -/
def networkKeywords : List String :=
  ["network", "enotfound", "dns", "getaddrinfo", "econnrefused"]

/-- Does the lowercased message contain any keyword of the list? -/
def matchesAnyKeyword (message : String) (kws : List String) : Bool :=
  kws.any (fun k => strIncludes (strToLower message) k)

/-- Spec-side restatement of the classifier: case-insensitive substring
matching against fixed keyword sets, evaluated transient first, then auth,
then network, falling through to permanent. Compared against
`classifyError` in the refinement theorem. -/
def classifySpec (message : String) : ErrorType :=
  if matchesAnyKeyword message transientKeywords then .transient
  else if matchesAnyKeyword message authKeywords then .auth
  else if matchesAnyKeyword message networkKeywords then .network
  else .permanent

/-- `MAX_TOOL_OUTPUT_CHARS` (AgentController.ts line 149). -/
def MAX_TOOL_OUTPUT_CHARS : Nat := 100000

/-- Insert a thousands separator after every third digit of a reversed
digit list (helper for the `toLocaleString` model). -/
def commaRevAux : Nat → List Char → List Char
  | _, [] => []
  | k, c :: rest =>
    if k == 3 then ',' :: c :: commaRevAux 1 rest
    else c :: commaRevAux (k + 1) rest

/-- Model of JS `Number.prototype.toLocaleString()` on naturals with the
en-US thousands grouping used in the truncation marker. -/
def toLocaleString (n : Nat) : String :=
  String.mk ((commaRevAux 0 (toString n).data.reverse).reverse)

/-- The truncation marker appended by `truncateToolOutput` when the output
of original length `n` is cut (AgentController.ts line 564). -/
def truncMarker (n : Nat) : String :=
  "\n\n[OUTPUT TRUNCATED — " ++ toLocaleString n
    ++ " chars total, showing first "
    ++ toLocaleString MAX_TOOL_OUTPUT_CHARS ++ "]"

/-- Model of `AgentController.truncateToolOutput` (lines 561-565). -/
def truncateToolOutput (output : String) : String :=
  if output.length ≤ MAX_TOOL_OUTPUT_CHARS then output
  else String.mk (output.data.take MAX_TOOL_OUTPUT_CHARS) ++ truncMarker output.length

/-- JS regex word character class (backslash-w): ASCII letters, digits, underscore. -/
def isWordChar (c : Char) : Bool :=
  c.isAlphanum || c == '_'

/-- Word-character test on an optional context character (absent counts as
non-word, as at the edge of the string). -/
def optIsWord : Option Char → Bool
  | some c => isWordChar c
  | none => false

/-- JS regex whitespace class (backslash-s), restricted to the characters a
shell command can realistically contain. -/
def isJsSpace (c : Char) : Bool :=
  c == ' ' || c == '\t' || c == '\n' || c == '\r'
    || c == Char.ofNat 11 || c == Char.ofNat 12 || c == Char.ofNat 160

/-- Regular-expression abstract syntax for the blocked-command patterns:
empty, literal character, character class, concatenation, alternation,
Kleene star, word boundary, end-of-input anchor. -/
inductive RE
  | eps
  | ch (c : Char)
  | cls (p : Char → Bool)
  | seq (a b : RE)
  | alt (a b : RE)
  | star (r : RE)
  | wb
  | eos

/-- Node count of a regex, used to size the matcher fuel. -/
def reSize : RE → Nat
  | .eps | .ch _ | .cls _ | .wb | .eos => 1
  | .seq a b | .alt a b => reSize a + reSize b + 1
  | .star r => reSize r + 1

/-- Is the next character a word character? (for word boundaries). -/
def nextIsWord : List Char → Bool
  | [] => false
  | c :: _ => isWordChar c

/-- Fuel-bounded backtracking matcher in continuation-passing style.
`prev` is the character just before the current position (for word
boundaries); the continuation receives the updated context and the rest of
the input. Matches exactly the existential match semantics of JS `test`. -/
def reMatch : Nat → RE → Option Char → List Char → (Option Char → List Char → Bool) → Bool
  | 0, _, _, _, _ => false
  | fuel + 1, re, prev, s, k =>
    match re with
    | .eps => k prev s
    | .ch c =>
      match s with
      | [] => false
      | x :: rest => x == c && k (some x) rest
    | .cls p =>
      match s with
      | [] => false
      | x :: rest => p x && k (some x) rest
    | .seq a b => reMatch fuel a prev s (fun p' s' => reMatch fuel b p' s' k)
    | .alt a b => reMatch fuel a prev s k || reMatch fuel b prev s k
    | .star r =>
      k prev s || reMatch fuel r prev s (fun p' s' =>
        if s'.length < s.length then reMatch fuel (.star r) p' s' k else false)
    | .wb => (optIsWord prev != nextIsWord s) && k prev s
    | .eos => s.isEmpty && k prev s

/-- Try the matcher at every start position (JS `test` searches for a match
anywhere in the string). -/
def reTestAux (fuel : Nat) (r : RE) : Option Char → List Char → Bool
  | prev, [] => reMatch fuel r prev [] (fun _ _ => true)
  | prev, x :: rest =>
    reMatch fuel r prev (x :: rest) (fun _ _ => true) || reTestAux fuel r (some x) rest

/-- Model of JS `pattern.test(command)`. The fuel is generous for the
blocked-command patterns, whose stars all range over one-character atoms. -/
def reTest (r : RE) (s : String) : Bool :=
  reTestAux ((reSize r + 1) * (s.data.length + 2)) r none s.data

/-- Literal string as a regex. -/
def reStr (s : String) : RE :=
  s.data.foldr (fun c acc => .seq (.ch c) acc) .eps

/-- Concatenation of a list of regexes. -/
def reSeqs (l : List RE) : RE :=
  l.foldr .seq .eps

/-- JS `.` (any character except newline, no dotall flag). -/
def dotCls : RE := .cls (fun c => c != '\n')

/-- JS `.*`. -/
def dotStar : RE := .star dotCls

/-- JS backslash-s as a regex atom. -/
def spaceCls : RE := .cls isJsSpace

/-- JS backslash-s+. -/
def spacePlus : RE := .seq spaceCls (.star spaceCls)

/-- Model of `BLOCKED_BASH_PATTERNS` (AgentController.ts lines 116-138):
each entry is the regex of the source line together with its reason. -/
def BLOCKED_BASH_PATTERNS : List (RE × String) :=
  [ (reSeqs [.wb, reStr "security", spaceCls], "macOS Keychain access (security command)"),
    (reSeqs [.wb, reStr "keyctl", .wb], "Linux kernel keyring access"),
    (reSeqs [.wb, reStr "secret-tool", .wb], "Linux libsecret access"),
    (reSeqs [.wb, reStr "gpg", .wb, dotStar, reStr "--export-secret"], "GPG secret key export"),
    (reSeqs [.wb, reStr "cat", .wb, dotStar, reStr ".ssh/",
       .alt (reStr "id_") (reSeqs [dotStar, reStr "_key", .wb])], "SSH private key read"),
    (reSeqs [.wb, reStr "cat", .wb, dotStar, reStr ".aws/credentials"], "AWS credentials read"),
    (reSeqs [.wb, reStr "cat", .wb, dotStar, reStr ".azure/"], "Azure credentials read"),
    (reSeqs [.wb, reStr "cat", .wb, dotStar, reStr ".config/gcloud/"], "GCloud credentials read"),
    (reSeqs [.wb,
       .alt (reStr "cat") (.alt (reStr "head") (.alt (reStr "tail")
         (.alt (reStr "less") (.alt (reStr "more") (reStr "bat"))))),
       .wb, dotStar, .ch '.',
       .alt (reStr "pem") (.alt (reStr "key") (.alt (reStr "p12")
         (.alt (reStr "pfx") (.alt (reStr "jks") (reStr "keystore"))))),
       .wb], "Private key/certificate file read"),
    (reSeqs [.wb, .alt (reStr "env") (.alt (reStr "printenv") (reStr "set")),
       .star spaceCls, .eos], "Environment variable dump"),
    (reSeqs [.wb, reStr "export", spacePlus, reStr "-p", .star spaceCls, .eos],
       "Environment variable dump"),
    (reSeqs [.wb, reStr "pass", spacePlus,
       .alt (reStr "show") (.alt (reStr "ls") (reStr "grep"))], "Password store access"),
    (.alt (reSeqs [.wb, reStr "1password", .wb])
       (reSeqs [reStr "op", spacePlus, .alt (reStr "item") (reStr "vault"),
          spacePlus, reStr "get"]), "1Password CLI access") ]

/-- Reason of the first blocked pattern matching the command, if any
(the loop over `BLOCKED_BASH_PATTERNS` in the Bash branch). -/
def firstBlockedReason (command : String) : Option String :=
  (BLOCKED_BASH_PATTERNS.find? (fun e => reTest e.1 command)).map (·.2)

/-- The settings fields the permission handler reads
(`ClaudeCodeSettings` in src/types.ts). -/
structure ClaudeCodeSettings where
  autoApproveVaultWrites : Bool
  requireBashApproval : Bool
  alwaysAllowedTools : List String
  allowedCommands : List String
deriving DecidableEq, Repr

/-- `READ_ONLY_TOOLS` (AgentController.ts lines 96-102). -/
def READ_ONLY_TOOLS : List String :=
  ["Read", "Glob", "Grep", "LS",
   "mcp__obsidian__get_active_file",
   "mcp__obsidian__get_vault_stats",
   "mcp__obsidian__get_recent_files",
   "mcp__obsidian__list_commands"]

/-- `SAFE_UI_TOOLS` (AgentController.ts lines 105-109). -/
def SAFE_UI_TOOLS : List String :=
  ["mcp__obsidian__open_file",
   "mcp__obsidian__show_notice",
   "mcp__obsidian__reveal_in_explorer"]

/-- `WRITE_TOOLS` (AgentController.ts line 112). -/
def WRITE_TOOLS : List String := ["Write", "Edit", "MultiEdit"]

/-- `AgentController.SESSION_ONLY_TOOLS` (line 771). -/
def SESSION_ONLY_TOOLS : List String := ["Bash"]

/-- `DEFAULT_TOOL_CALL_LIMITS` (AgentController.ts lines 141-147). -/
def DEFAULT_TOOL_CALL_LIMITS : List (String × Nat) :=
  [("Bash", 10), ("Write", 20), ("Edit", 30), ("WebFetch", 5), ("_total", 50)]

/-- Lookup in a JS-object-like association list. -/
def alistLookup (l : List (String × Nat)) (k : String) : Option Nat :=
  (l.find? (fun e => e.1 == k)).map (·.2)

/-- Update in a JS-object-like association list: overwrite the existing
key in place, or append a new one. -/
def alistSet : List (String × Nat) → String → Nat → List (String × Nat)
  | [], k, v => [(k, v)]
  | e :: rest, k, v => if e.1 == k then (k, v) :: rest else e :: alistSet rest k v

/-- JS `counts[k] = (counts[k] || 0) + 1`. -/
def bumpCount (counts : List (String × Nat)) (k : String) : List (String × Nat) :=
  alistSet counts k ((alistLookup counts k).getD 0 + 1)

/-- JS `counts[k] || 0`. -/
def getCount (counts : List (String × Nat)) (k : String) : Nat :=
  (alistLookup counts k).getD 0

/-- Rate-limiter state: per-tool call counters and current limits
(`toolCallCounts` / `toolCallLimits` of the controller). -/
structure RLState where
  counts : List (String × Nat)
  limits : List (String × Nat)
deriving DecidableEq, Repr

/-- Rate-limiter state at the start of a turn: counters reset, limits
copied from the defaults (sendMessageInternal lines 231-232). -/
def rlInit : RLState := ⟨[], DEFAULT_TOOL_CALL_LIMITS⟩

/-- Result of one `checkRateLimit` call: the deny message if the call was
blocked, whether the rate-limit modal was shown, and the new state. -/
structure RateOutcome where
  denyMsg : Option String
  promptShown : Bool
  rl : RLState
deriving DecidableEq, Repr

/-- Model of `checkRateLimit` (AgentController.ts lines 611-643).
`shouldContinue` is the user's answer if the modal is shown (the modal is
shown exactly when `promptShown` is true in the result). -/
def checkRateLimit (toolName : String) (rl : RLState) (shouldContinue : Bool) : RateOutcome :=
  let counts := bumpCount (bumpCount rl.counts toolName) "_total"
  let perToolLimit := alistLookup rl.limits toolName
  let totalLimit := alistLookup rl.limits "_total"
  let hitPerTool :=
    match perToolLimit with
    | some l => getCount counts toolName > l
    | none => false
  let hitTotal :=
    match totalLimit with
    | some l => getCount counts "_total" > l
    | none => false
  if !hitPerTool && !hitTotal then ⟨none, false, ⟨counts, rl.limits⟩⟩
  else
    let limitHit := if hitPerTool then perToolLimit.getD 0 else totalLimit.getD 0
    let countHit := if hitPerTool then getCount counts toolName else getCount counts "_total"
    let labelHit := if hitPerTool then toolName else "all tools combined"
    if !shouldContinue then
      ⟨some ("Rate limit reached for " ++ labelHit ++ " (" ++ toString countHit ++ "/"
          ++ toString limitHit ++ "). User stopped execution."),
       true, ⟨counts, rl.limits⟩⟩
    else
      let limits :=
        if hitPerTool then alistSet rl.limits toolName (perToolLimit.getD 0 * 2)
        else alistSet rl.limits "_total" (totalLimit.getD 0 * 2)
      ⟨none, true, ⟨counts, limits⟩⟩

/-- One rate-limited call per list entry: the tool called and the user's
answer should the modal be shown. Produces per call the pair
(modal shown?, call denied?). -/
def rateCalls : List (String × Bool) → RLState → List (Bool × Bool)
  | [], _ => []
  | (tool, resp) :: rest, rl =>
    let r := checkRateLimit tool rl resp
    (r.promptShown, r.denyMsg.isSome) :: rateCalls rest r.rl

/-- Final rate-limiter state after a list of calls. -/
def rateRunState : List (String × Bool) → RLState → RLState
  | [], rl => rl
  | (tool, resp) :: rest, rl => rateRunState rest (checkRateLimit tool rl resp).rl

/-- User choice offered by the permission modal. -/
inductive PermissionChoice
  | once
  | session
  | always
deriving DecidableEq, Repr

/-- Outcome of showing the permission modal: approve with a choice, or
deny (closing the modal counts as deny). -/
inductive ModalResponse
  | approve (choice : PermissionChoice)
  | deny
deriving DecidableEq, Repr

/-- Risk level passed to the permission modal. -/
inductive Risk
  | low
  | medium
  | high
deriving DecidableEq, Repr

/-- Permission decision: allow (the input is always passed through
unchanged by the source) or deny with a message. -/
inductive Decision
  | allow
  | denyWith (message : String)
deriving DecidableEq, Repr

/-- Mutable state the permission handler touches: persistent settings,
the session-approved tool set, and the rate-limiter state. -/
structure PermState where
  settings : ClaudeCodeSettings
  approvedTools : List String
  rl : RLState
deriving DecidableEq, Repr

/-- JS `Set.add`: append if absent. -/
def addToSet (l : List String) (x : String) : List String :=
  if l.contains x then l else l ++ [x]

/-- Model of `handlePermissionChoice` (AgentController.ts lines 774-791). -/
def handlePermissionChoice (toolName : String) (choice : PermissionChoice)
    (st : PermState) : PermState :=
  match choice with
  | .once => st
  | .session => { st with approvedTools := addToSet st.approvedTools toolName }
  | .always =>
    if SESSION_ONLY_TOOLS.contains toolName then
      { st with approvedTools := addToSet st.approvedTools toolName }
    else if st.settings.alwaysAllowedTools.contains toolName then st
    else
      { st with settings :=
          { st.settings with alwaysAllowedTools := st.settings.alwaysAllowedTools ++ [toolName] } }

/-- Result of a permission request: the decision, whether the rate-limit
modal and the permission modal were shown, and the state afterwards. -/
structure PermOutcome where
  decision : Decision
  ratePromptShown : Bool
  permPromptShown : Bool
  state : PermState
deriving DecidableEq, Repr

/-- Model of `requireApproval` (AgentController.ts lines 662-677): allow if
session-approved, otherwise ask the modal. The rate field is filled in by
the caller. -/
def requireApproval (toolName : String) (risk : Risk) (denyMessage : String)
    (st : PermState) (resp : ModalResponse) : PermOutcome :=
  if st.approvedTools.contains toolName then ⟨.allow, false, false, st⟩
  else
    match resp with
    | .approve choice => ⟨.allow, false, true, handlePermissionChoice toolName choice st⟩
    | .deny => ⟨.denyWith denyMessage, false, true, st⟩

/-- Copy the rate-modal flag of a rate outcome onto a permission outcome. -/
def withRate (r : RateOutcome) (out : PermOutcome) : PermOutcome :=
  { out with ratePromptShown := r.promptShown }

/-- The tool-input fields the permission handler reads. -/
structure ToolInput where
  command : Option String := none
  commandId : Option String := none
  path : Option String := none
deriving DecidableEq, Repr

/-- Split a path on slashes. -/
def splitOnSlash (s : String) : List String :=
  s.split (· == '/')

/-- Node `path.isAbsolute` (posix). -/
def pathIsAbsolute (p : String) : Bool :=
  p.startsWith "/"

/-- Segment resolution for Node `path.normalize` (posix): drop empty and
dot segments, resolve dot-dot against the accumulator (kept reversed). -/
def normSegsAux (isAbs : Bool) : List String → List String → List String
  | acc, [] => acc
  | acc, seg :: rest =>
    if seg == "" || seg == "." then normSegsAux isAbs acc rest
    else if seg == ".." then
      match acc with
      | top :: accTail =>
        if top == ".." then normSegsAux isAbs (".." :: top :: accTail) rest
        else normSegsAux isAbs accTail rest
      | [] => if isAbs then normSegsAux isAbs [] rest else normSegsAux isAbs [".."] rest
    else normSegsAux isAbs (seg :: acc) rest

/-- Model of Node `path.normalize` (posix). -/
def pathNormalize (p : String) : String :=
  if p == "" then "."
  else
    let isAbs := pathIsAbsolute p
    let core := String.intercalate "/" (normSegsAux isAbs [] (splitOnSlash p)).reverse
    let base :=
      if core == "" then (if isAbs then "/" else ".")
      else (if isAbs then "/" ++ core else core)
    if p.endsWith "/" && base != "/" then base ++ "/" else base

/-- The body of `handlePermission` after the rate-limit check, the
read-only/safe-UI auto-allow and the session-only migration
(AgentController.ts lines 705-767), as a function of the migrated state.
Its rate-modal flag is filled in by `handlePermission`. -/
def handlePermissionBody (toolName : String) (input : ToolInput) (st2 : PermState)
    (resp : ModalResponse) : PermOutcome :=
  if toolName == "mcp__obsidian__execute_command" then
    let commandId := input.commandId.getD ""
    if !st2.settings.allowedCommands.contains commandId then
      ⟨.denyWith ("Command \"" ++ commandId
          ++ "\" is not in the allowed commands list. Add it in Settings > Claude Code > Allowed Commands."),
       false, false, st2⟩
    else requireApproval toolName .high "User denied execute_command permission" st2 resp
  else if toolName == "mcp__obsidian__create_note" then
    let notePath := input.path.getD ""
    let normalized := pathNormalize notePath
    if normalized.startsWith ".." || pathIsAbsolute normalized then
      ⟨.denyWith "Error: path must be relative and within vault", false, false, st2⟩
    else if normalized.startsWith ".obsidian" then
      ⟨.denyWith "Error: cannot create files in .obsidian/", false, false, st2⟩
    else requireApproval toolName .medium "User denied create_note permission" st2 resp
  else if !SESSION_ONLY_TOOLS.contains toolName
      && st2.settings.alwaysAllowedTools.contains toolName then
    ⟨.allow, false, false, st2⟩
  else if WRITE_TOOLS.contains toolName then
    if st2.settings.autoApproveVaultWrites then ⟨.allow, false, false, st2⟩
    else requireApproval toolName .medium "User denied file write permission" st2 resp
  else if toolName == "Bash" then
    let command := input.command.getD ""
    match BLOCKED_BASH_PATTERNS.find? (fun e => reTest e.1 command) with
    | some e =>
      ⟨.denyWith ("Blocked: " ++ e.2 ++ ". This command is not allowed for security."),
       false, false, st2⟩
    | none =>
      if !st2.settings.requireBashApproval then ⟨.allow, false, false, st2⟩
      else requireApproval toolName .high "User denied bash command permission" st2 resp
  else if toolName == "Task" then ⟨.allow, false, false, st2⟩
  else requireApproval toolName .medium ("User denied permission for " ++ toolName) st2 resp

/-- Model of `handlePermission` (AgentController.ts lines 680-768), the
permission callback for one tool invocation. `rateContinue` answers the
rate-limit modal and `resp` the permission modal, should they be shown.
The rate check runs first; read-only and safe-UI tools are auto-allowed;
session-only tools are migrated out of the durable always-allowed set;
the rest is `handlePermissionBody`, whose outcome carries the rate-modal
flag of this call. -/
def handlePermission (toolName : String) (input : ToolInput) (st : PermState)
    (rateContinue : Bool) (resp : ModalResponse) : PermOutcome :=
  let r := checkRateLimit toolName st.rl rateContinue
  let st1 : PermState := { st with rl := r.rl }
  match r.denyMsg with
  | some m => ⟨.denyWith m, r.promptShown, false, st1⟩
  | none =>
    if READ_ONLY_TOOLS.contains toolName || SAFE_UI_TOOLS.contains toolName then
      ⟨.allow, r.promptShown, false, st1⟩
    else
      let st2 :=
        if SESSION_ONLY_TOOLS.contains toolName
            && st1.settings.alwaysAllowedTools.contains toolName then
          { st1 with settings :=
              { st1.settings with alwaysAllowedTools :=
                  st1.settings.alwaysAllowedTools.filter (fun tool => tool != toolName) } }
        else st1
      withRate r (handlePermissionBody toolName input st2 resp)

/-- A sequence of permission requests: each entry carries the tool, its
input, and the user's answers to whichever modals appear. -/
def runPerm : List (String × ToolInput × Bool × ModalResponse) → PermState → PermState
  | [], st => st
  | (toolName, input, rateContinue, resp) :: rest, st =>
    runPerm rest (handlePermission toolName input st rateContinue resp).state

namespace toolPermissions

/-- `READ_ONLY_TOOLS` (toolPermissions.ts lines 8-17). -/
def READ_ONLY_TOOLS : List String :=
  ["Read", "Glob", "Grep", "LS",
   "mcp__obsidian__get_active_file",
   "mcp__obsidian__get_vault_stats",
   "mcp__obsidian__get_recent_files",
   "mcp__obsidian__list_commands"]

/-- `WRITE_TOOLS` (toolPermissions.ts line 22). -/
def WRITE_TOOLS : List String := ["Write", "Edit", "MultiEdit"]

/-- `OBSIDIAN_UI_TOOLS` (toolPermissions.ts lines 28-32). -/
def OBSIDIAN_UI_TOOLS : List String :=
  ["mcp__obsidian__open_file",
   "mcp__obsidian__show_notice",
   "mcp__obsidian__reveal_in_explorer"]

/-- `CONTROLLED_OBSIDIAN_TOOLS` (toolPermissions.ts lines 37-40). -/
def CONTROLLED_OBSIDIAN_TOOLS : List String :=
  ["mcp__obsidian__execute_command", "mcp__obsidian__create_note"]

/-- `SUBAGENT_TOOLS` (toolPermissions.ts line 45). -/
def SUBAGENT_TOOLS : List String := ["Task"]

/-- `SYSTEM_TOOLS` (toolPermissions.ts line 50). -/
def SYSTEM_TOOLS : List String := ["Bash"]

/-- `isReadOnlyTool`. -/
def isReadOnlyTool (toolName : String) : Bool := READ_ONLY_TOOLS.contains toolName

/-- `isWriteTool`. -/
def isWriteTool (toolName : String) : Bool := WRITE_TOOLS.contains toolName

/-- `isObsidianUiTool`. -/
def isObsidianUiTool (toolName : String) : Bool := OBSIDIAN_UI_TOOLS.contains toolName

/-- `isSubagentTool`. -/
def isSubagentTool (toolName : String) : Bool := SUBAGENT_TOOLS.contains toolName

/-- `isSystemTool`. -/
def isSystemTool (toolName : String) : Bool := SYSTEM_TOOLS.contains toolName

/-- The settings argument of `shouldAutoApprove`. -/
structure PermSettings where
  autoApproveVaultWrites : Bool
  requireBashApproval : Bool
  alwaysAllowedTools : List String
deriving DecidableEq, Repr

/-- Model of `shouldAutoApprove` (toolPermissions.ts lines 116-151). -/
def shouldAutoApprove (toolName : String) (settings : PermSettings) : Bool :=
  if isReadOnlyTool toolName then true
  else if isObsidianUiTool toolName then true
  else if CONTROLLED_OBSIDIAN_TOOLS.contains toolName then false
  else if settings.alwaysAllowedTools.contains toolName && toolName != "Bash" then true
  else if isWriteTool toolName then settings.autoApproveVaultWrites
  else if isSystemTool toolName then !settings.requireBashApproval
  else if isSubagentTool toolName then true
  else false

end toolPermissions

/-- Tool-call lifecycle status (src/types.ts line 105). -/
inductive ToolStatus
  | pending
  | running
  | success
  | error
deriving DecidableEq, Repr

/-- Subagent lifecycle status (src/types.ts line 90). -/
inductive SubagentStatus
  | starting
  | running
  | thinking
  | completed
  | interrupted
  | error
deriving DecidableEq, Repr

/-- `SubagentProgress` (src/types.ts lines 93-97). -/
structure SubagentProgress where
  message : Option String
  startTime : Nat
  lastUpdate : Nat
deriving DecidableEq, Repr

/-- `ToolCall` (src/types.ts lines 100-116). Of the opaque `input` map only
the `description` field is kept: it is the only input field the modelled
code reads. -/
structure ToolCall where
  id : String
  name : String
  description : Option String := none
  output : Option String := none
  status : ToolStatus
  error : Option String := none
  startTime : Nat
  endTime : Option Nat := none
  isSubagent : Bool := false
  subagentId : Option String := none
  subagentType : Option String := none
  subagentStatus : Option SubagentStatus := none
  subagentProgress : Option SubagentProgress := none
deriving DecidableEq, Repr

/-- The success-result finalization loop (AgentController.ts lines
420-426): any still-running call becomes success with an end timestamp. -/
def finalizeOnSuccess (now : Nat) (toolCalls : List ToolCall) : List ToolCall :=
  toolCalls.map (fun tc =>
    if tc.status == .running then { tc with status := .success, endTime := some now }
    else tc)

/-- The error-result finalization loop (AgentController.ts lines 441-457):
any still-running call becomes error with an end timestamp; running
subagents are additionally marked errored with a progress message. -/
def finalizeOnError (now : Nat) (toolCalls : List ToolCall) : List ToolCall :=
  toolCalls.map (fun tc =>
    if tc.status == .running then
      let tc1 := { tc with status := ToolStatus.error, endTime := some now }
      if tc1.isSubagent then
        { tc1 with
            subagentStatus := some .error,
            subagentProgress := tc1.subagentProgress.map
              (fun p => { p with message := some "Error during execution", lastUpdate := now }) }
      else tc1
    else tc)

/-- The pending test of `findToolCallForSubagent` (line 901): a subagent
Task call still in the starting state with no subagent id attached (JS
truthiness: an absent or empty id counts as unset). -/
def pendingSubagentP (tc : ToolCall) : Bool :=
  tc.isSubagent && tc.subagentStatus == some .starting && (tc.subagentId.getD "") == ""

/-- Model of `findToolCallForSubagent` (AgentController.ts lines 897-918). -/
def findToolCallForSubagent (description : Option String) (subagentType : Option String) :
    List ToolCall → Option ToolCall
  | [] => none
  | tc :: rest =>
    if pendingSubagentP tc then
      if (subagentType.getD "") != "" && tc.subagentType == subagentType then some tc
      else if (description.getD "") != ""
          && (let tcDesc := tc.description.getD ""
              tcDesc != "" && strIncludes (description.getD "") (String.mk (tcDesc.data.take 50))) then
        some tc
      else some tc
    else findToolCallForSubagent description subagentType rest

/-- Inputs used by witnesses: an output string one character over the cap. -/
def bigOutput : String := String.mk (List.replicate 100001 'a')

/-- Witness input for the subagent-matching counterexample: a pending Task
call of type alpha, listed first. -/
def pendingTaskA : ToolCall :=
  { id := "tc-1", name := "Task", status := .running, startTime := 0,
    isSubagent := true, subagentType := some "alpha", subagentStatus := some .starting }

/-- Witness input: a pending Task call of type beta, listed second. -/
def pendingTaskB : ToolCall :=
  { id := "tc-2", name := "Task", status := .running, startTime := 1,
    isSubagent := true, subagentType := some "beta", subagentStatus := some .starting }

/-- Witness input: a demo tool-call list with one running and one finished
call. -/
def demoRunningCall : ToolCall :=
  { id := "t-run", name := "Bash", status := .running, startTime := 3 }

/-- Witness input: an already finished call. -/
def demoDoneCall : ToolCall :=
  { id := "t-done", name := "Read", status := .success, startTime := 1, endTime := some 2 }

/-- Witness input list for the finalization claim. -/
def demoCalls : List ToolCall := [demoRunningCall, demoDoneCall]

/-- Single-tool rate-limiter state: counters as they look after k calls of
one tool t (with t distinct from the aggregate key) in a turn. -/
def singleToolState (t : String) (k : Nat) (limits : List (String × Nat)) : RLState :=
  ⟨[(t, k), ("_total", k)], limits⟩

/-- Witness input: seven WebFetch calls; the user answers stop at the
prompt of call 6 and continue at the prompt of call 7. -/
def c3Run : List (String × Bool) :=
  [("WebFetch", true), ("WebFetch", true), ("WebFetch", true), ("WebFetch", true),
   ("WebFetch", true), ("WebFetch", false), ("WebFetch", true)]

/-- Witness input: settings with Bash wrongly pre-listed in the durable
always-allowed set and Bash approval not required. -/
def demoSettingsBash : ClaudeCodeSettings :=
  { autoApproveVaultWrites := false, requireBashApproval := false,
    alwaysAllowedTools := ["Bash", "Write"], allowedCommands := [] }

/-- Witness input: permission state with Bash both session-approved and in
the durable set. -/
def demoPermStateBash : PermState := ⟨demoSettingsBash, ["Bash"], rlInit⟩

/-- Witness input: settings without Bash in the durable set. -/
def demoSettingsNoBash : ClaudeCodeSettings :=
  { autoApproveVaultWrites := true, requireBashApproval := true,
    alwaysAllowedTools := ["Write"], allowedCommands := ["editor:toggle-bold"] }

/-- Witness input: permission state without Bash anywhere. -/
def demoPermStateNoBash : PermState := ⟨demoSettingsNoBash, [], rlInit⟩

/-- Witness input: a sequence of permission requests with repeated
approve-always answers, including two for Bash. -/
def demoSeq : List (String × ToolInput × Bool × ModalResponse) :=
  [("Bash", ⟨some "ls", none, none⟩, true, .approve .always),
   ("Write", ⟨none, none, none⟩, true, .approve .always),
   ("Bash", ⟨some "git status", none, none⟩, true, .approve .session),
   ("SomeNewTool", ⟨none, none, none⟩, true, .deny)]

theorem strLength_mk (l : List Char) : (String.mk l).length = l.length := rfl

theorem strData_append (a b : String) : (a ++ b).data = a.data ++ b.data := by
  cases a; cases b; rfl

theorem strLength_append (a b : String) : (a ++ b).length = a.length + b.length := by
  cases a; cases b
  simp [String.length, String.instAppend, String.append]

theorem listBeginsWith_append (n b : List Char) : listBeginsWith (n ++ b) n = true := by
  induction n with
  | nil => cases b <;> rfl
  | cons c rest ih => simp [listBeginsWith, ih]

theorem listIncludes_of_beginsWith {l n : List Char} (h : listBeginsWith l n = true) :
    listIncludes l n = true := by
  cases l with
  | nil => simpa [listIncludes] using h
  | cons x rest => simp [listIncludes, h]

theorem listIncludes_append_left (a : List Char) {l n : List Char}
    (h : listIncludes l n = true) : listIncludes (a ++ l) n = true := by
  induction a with
  | nil => simpa using h
  | cons c rest ih =>
    have : listIncludes (c :: (rest ++ l)) n
        = (listBeginsWith (c :: (rest ++ l)) n || listIncludes (rest ++ l) n) := rfl
    simp only [List.cons_append, this, Bool.or_eq_true]
    exact Or.inr ih

/-- C10: an output string of length at most the 100,000-character cap is
returned unchanged by `truncateToolOutput`, with no marker appended, so a
second truncation changes nothing. -/
theorem c10_truncate_identity (s : String) (h : s.length ≤ MAX_TOOL_OUTPUT_CHARS) :
    truncateToolOutput s = s
      ∧ truncateToolOutput (truncateToolOutput s) = truncateToolOutput s := by
  have h1 : truncateToolOutput s = s := by
    unfold truncateToolOutput
    exact if_pos h
  exact ⟨h1, by rw [h1]; exact h1⟩

theorem c10_truncate_identity_witness :
    ("short output".length ≤ MAX_TOOL_OUTPUT_CHARS)
      ∧ truncateToolOutput "short output" = "short output"
      ∧ truncateToolOutput (truncateToolOutput "short output")
          = truncateToolOutput "short output" := by
  have h : ("short output".length ≤ MAX_TOOL_OUTPUT_CHARS) := by decide
  exact ⟨h, (c10_truncate_identity "short output" h).1, (c10_truncate_identity "short output" h).2⟩

/-- C8: truncating an output string longer than the cap yields the first
100,000 characters followed by the truncation marker; the result length is
exactly the cap plus the marker length, and the marker states both the
original length and the shown amount (as locale-grouped numbers). -/
theorem c8_truncate_marker (s : String) (h : MAX_TOOL_OUTPUT_CHARS < s.length) :
    truncateToolOutput s = String.mk (s.data.take MAX_TOOL_OUTPUT_CHARS) ++ truncMarker s.length
      ∧ (truncateToolOutput s).length = MAX_TOOL_OUTPUT_CHARS + (truncMarker s.length).length
      ∧ strIncludes (truncMarker s.length) (toLocaleString s.length) = true
      ∧ strIncludes (truncMarker s.length) (toLocaleString MAX_TOOL_OUTPUT_CHARS) = true := by
  have hdata : MAX_TOOL_OUTPUT_CHARS ≤ s.data.length := le_of_lt h
  have h1 : truncateToolOutput s
      = String.mk (s.data.take MAX_TOOL_OUTPUT_CHARS) ++ truncMarker s.length := by
    unfold truncateToolOutput
    exact if_neg (by omega)
  refine ⟨h1, ?_, ?_, ?_⟩
  · rw [h1, strLength_append, strLength_mk, List.length_take]
    omega
  · unfold strIncludes truncMarker
    simp only [strData_append, List.append_assoc]
    exact listIncludes_append_left _
      (listIncludes_of_beginsWith (listBeginsWith_append _ _))
  · unfold strIncludes truncMarker
    simp only [strData_append, List.append_assoc]
    exact listIncludes_append_left _ (listIncludes_append_left _
      (listIncludes_append_left _
        (listIncludes_of_beginsWith (listBeginsWith_append _ _))))

theorem c8_truncate_marker_witness :
    MAX_TOOL_OUTPUT_CHARS < bigOutput.length
      ∧ (truncateToolOutput bigOutput
          = String.mk (bigOutput.data.take MAX_TOOL_OUTPUT_CHARS) ++ truncMarker bigOutput.length
        ∧ (truncateToolOutput bigOutput).length
            = MAX_TOOL_OUTPUT_CHARS + (truncMarker bigOutput.length).length
        ∧ strIncludes (truncMarker bigOutput.length) (toLocaleString bigOutput.length) = true
        ∧ strIncludes (truncMarker bigOutput.length) (toLocaleString MAX_TOOL_OUTPUT_CHARS) = true) := by
  have h : MAX_TOOL_OUTPUT_CHARS < bigOutput.length := by
    show MAX_TOOL_OUTPUT_CHARS < (List.replicate 100001 'a').length
    rw [List.length_replicate]
    decide
  exact ⟨h, c8_truncate_marker bigOutput h⟩


theorem ifChainCollapse {α : Type} (a b : Bool) (x y : α) :
    (if a then x else if b then x else y) = (if a || b then x else y) := by
  cases a <;> cases b <;> simp

/-- C6: the classifier is a pure total function of the message text; it
agrees with the spec's keyword-set description (case-insensitive substring
matching, transient checked first, then auth, then network, falling through
to permanent); it depends only on the case-folded text; the empty message
classifies as permanent. -/
theorem c6_classifyError_pure :
    (∀ m, classifyError m = classifySpec m)
      ∧ (∀ m₁ m₂, strToLower m₁ = strToLower m₂ → classifyError m₁ = classifyError m₂)
      ∧ classifyError "" = ErrorType.permanent := by
  refine ⟨?_, ?_, by decide⟩
  · intro m
    unfold classifyError classifySpec matchesAnyKeyword
    simp only [transientKeywords, authKeywords, networkKeywords,
      List.any_cons, List.any_nil, Bool.or_false, ifChainCollapse, Bool.or_assoc]
  · intro m₁ m₂ h
    unfold classifyError
    rw [h]

theorem c6_classifyError_pure_witness :
    strToLower "Connection TIMEOUT after 30s" = strToLower "connection timeout AFTER 30S"
      ∧ classifyError "Connection TIMEOUT after 30s"
          = classifyError "connection timeout AFTER 30S"
      ∧ classifyError "" = ErrorType.permanent := by
  have h : strToLower "Connection TIMEOUT after 30s"
      = strToLower "connection timeout AFTER 30S" := by decide
  exact ⟨h, c6_classifyError_pure.2.1 _ _ h, c6_classifyError_pure.2.2⟩

/-- C7: after the end-of-turn finalization triggered by the result message,
no tool call is left in the running status: on a success result every
still-running call becomes success with an end timestamp, on an error
result it becomes error with an end timestamp, and calls already in a
terminal status are left untouched. -/
theorem c7_finalize_no_running (now : Nat) (calls : List ToolCall) :
    (∀ tc ∈ finalizeOnSuccess now calls, tc.status ≠ .running)
      ∧ (∀ tc ∈ finalizeOnError now calls, tc.status ≠ .running)
      ∧ (∀ (i : Nat) (tc : ToolCall), calls[i]? = some tc → tc.status = .running →
          (finalizeOnSuccess now calls)[i]?.map ToolCall.status = some .success
            ∧ (finalizeOnSuccess now calls)[i]?.map ToolCall.endTime = some (some now)
            ∧ (finalizeOnError now calls)[i]?.map ToolCall.status = some .error
            ∧ (finalizeOnError now calls)[i]?.map ToolCall.endTime = some (some now))
      ∧ (∀ (i : Nat) (tc : ToolCall), calls[i]? = some tc → tc.status ≠ .running →
          (finalizeOnSuccess now calls)[i]? = some tc
            ∧ (finalizeOnError now calls)[i]? = some tc) := by
  refine ⟨?_, ?_, ?_, ?_⟩
  · intro tc htc
    obtain ⟨tc0, _, rfl⟩ := List.mem_map.mp htc
    by_cases h : tc0.status = .running <;> simp [h]
  · intro tc htc
    obtain ⟨tc0, _, rfl⟩ := List.mem_map.mp htc
    by_cases h : tc0.status = .running <;> simp [h] <;> split <;> simp
  · intro i tc hget hrun
    refine ⟨?_, ?_, ?_, ?_⟩ <;>
      simp [finalizeOnSuccess, finalizeOnError, List.getElem?_map, hget, hrun] <;>
      split <;> simp
  · intro i tc hget hrun
    have h : (tc.status == ToolStatus.running) = false := by
      simpa using hrun
    constructor
    · simp [finalizeOnSuccess, List.getElem?_map, hget, h]
      exact fun hc => absurd hc hrun
    · simp [finalizeOnError, List.getElem?_map, hget, h]
      exact fun hc => absurd hc hrun

theorem c7_finalize_no_running_witness :
    demoCalls[0]? = some demoRunningCall
      ∧ demoRunningCall.status = .running
      ∧ (finalizeOnSuccess 7 demoCalls)[0]?.map ToolCall.status = some .success
      ∧ (finalizeOnSuccess 7 demoCalls)[0]?.map ToolCall.endTime = some (some 7)
      ∧ (finalizeOnError 7 demoCalls)[0]?.map ToolCall.status = some .error
      ∧ (finalizeOnError 7 demoCalls)[0]?.map ToolCall.endTime = some (some 7) := by
  refine ⟨rfl, rfl, ?_⟩
  have h := (c7_finalize_no_running 7 demoCalls).2.2.1 0 demoRunningCall rfl rfl
  exact ⟨h.1, h.2.1, h.2.2.1, h.2.2.2⟩

/-- C9 (amended): the reconciliation of a subagent-started event always
selects the oldest unmatched pending subagent record; the type and
description tests inspect only that first pending record and every branch
returns it, so they never cause a later record to be preferred. -/
theorem c9_subagent_match_first_pending (description subagentType : Option String)
    (calls : List ToolCall) :
    findToolCallForSubagent description subagentType calls = calls.find? pendingSubagentP := by
  induction calls with
  | nil => rfl
  | cons tc rest ih =>
    by_cases h : pendingSubagentP tc = true
    · simp [findToolCallForSubagent, List.find?_cons_of_pos _ h, h]
    · have h' : pendingSubagentP tc = false := by simpa using h
      have hfind : List.find? pendingSubagentP (tc :: rest) = List.find? pendingSubagentP rest :=
        List.find?_cons_of_neg _ (by simp [h'])
      rw [hfind, ← ih]
      simp [findToolCallForSubagent, h']

/-- C9 counterexample: with two pending subagent Task calls, type alpha
first and type beta second, a started event of type beta is matched to the
alpha record, although an unmatched pending record of the event's exact
type exists. This falsifies type-first preference across records. -/
theorem c9_subagent_match_cex :
    findToolCallForSubagent (some "investigate flaky test") (some "beta")
        [pendingTaskA, pendingTaskB] = some pendingTaskA
      ∧ pendingTaskA.subagentType = some "alpha"
      ∧ pendingTaskB.subagentType = some "beta"
      ∧ pendingSubagentP pendingTaskB = true := by
  decide

theorem alistLookup_set_self (l : List (String × Nat)) (k : String) (v : Nat) :
    alistLookup (alistSet l k v) k = some v := by
  induction l with
  | nil => simp [alistSet, alistLookup, List.find?]
  | cons e rest ih =>
    by_cases h : e.1 == k
    · simp [alistSet, alistLookup, List.find?, h]
    · have h' : (e.1 == k) = false := by simpa using h
      simp [alistSet, alistLookup, List.find?, h'] at ih ⊢
      exact ih

theorem alistLookup_set_ne (l : List (String × Nat)) (k k' : String) (v : Nat)
    (h : k ≠ k') :
    alistLookup (alistSet l k v) k' = alistLookup l k' := by
  have hb : (k == k') = false := by simpa using h
  induction l with
  | nil => simp [alistSet, alistLookup, List.find?, hb]
  | cons e rest ih =>
    by_cases he : e.1 == k
    · have hek : e.1 = k := by simpa using he
      simp [alistSet, alistLookup, List.find?, he, hek, hb]
    · have he' : (e.1 == k) = false := by simpa using he
      by_cases he2 : e.1 == k'
      · simp [alistSet, alistLookup, List.find?, he', he2]
      · have he2' : (e.1 == k') = false := by simpa using he2
        simp [alistSet, alistLookup, List.find?, he', he2'] at ih ⊢
        exact ih

theorem getCount_bump_self (c : List (String × Nat)) (k : String) :
    getCount (bumpCount c k) k = getCount c k + 1 := by
  simp [getCount, bumpCount, alistLookup_set_self]

theorem getCount_bump_ne (c : List (String × Nat)) (k k' : String) (h : k' ≠ k) :
    getCount (bumpCount c k') k = getCount c k := by
  simp [getCount, bumpCount, alistLookup_set_ne _ _ _ _ h]

theorem singleTool_bump (t : String) (ht : t ≠ "_total") (k : Nat) :
    bumpCount (bumpCount [(t, k), ("_total", k)] t) "_total"
      = [(t, k + 1), ("_total", k + 1)] := by
  have hb : (t == "_total") = false := by simpa using ht
  simp [bumpCount, alistLookup, alistSet, List.find?, hb]

theorem checkRateLimit_pass (t : String) (ht : t ≠ "_total") (k L T : Nat)
    (limits : List (String × Nat))
    (hL : alistLookup limits t = some L) (hT : alistLookup limits "_total" = some T)
    (hkL : k + 1 ≤ L) (hkT : k + 1 ≤ T) (resp : Bool) :
    checkRateLimit t (singleToolState t k limits) resp
      = ⟨none, false, singleToolState t (k + 1) limits⟩ := by
  have hb : (t == "_total") = false := by simpa using ht
  have h1 : ¬ (L < k + 1) := by omega
  have h2 : ¬ (T < k + 1) := by omega
  have hc1 : getCount [(t, k + 1), ("_total", k + 1)] t = k + 1 := by
    simp [getCount, alistLookup, List.find?]
  have hc2 : getCount [(t, k + 1), ("_total", k + 1)] "_total" = k + 1 := by
    simp [getCount, alistLookup, List.find?, hb]
  unfold checkRateLimit
  simp only [singleToolState]
  simp only [singleTool_bump t ht k, hL, hT, hc1, hc2]
  simp [h1, h2, singleToolState]

theorem checkRateLimit_hitPerTool (t : String) (ht : t ≠ "_total") (k L T : Nat)
    (limits : List (String × Nat))
    (hL : alistLookup limits t = some L) (hT : alistLookup limits "_total" = some T)
    (hkL : L < k + 1) (hkT : ¬ T < k + 1) (resp : Bool) :
    checkRateLimit t (singleToolState t k limits) resp
      = if resp then
          ⟨none, true, ⟨[(t, k + 1), ("_total", k + 1)], alistSet limits t (L * 2)⟩⟩
        else
          ⟨some ("Rate limit reached for " ++ t ++ " (" ++ toString (k + 1) ++ "/"
              ++ toString L ++ "). User stopped execution."),
           true, ⟨[(t, k + 1), ("_total", k + 1)], limits⟩⟩ := by
  have hb : (t == "_total") = false := by simpa using ht
  have hc1 : getCount [(t, k + 1), ("_total", k + 1)] t = k + 1 := by
    simp [getCount, alistLookup, List.find?]
  have hc2 : getCount [(t, k + 1), ("_total", k + 1)] "_total" = k + 1 := by
    simp [getCount, alistLookup, List.find?, hb]
  unfold checkRateLimit
  simp only [singleToolState]
  simp only [singleTool_bump t ht k, hL, hT, hc1, hc2]
  cases resp <;> simp [hkL]

theorem checkRateLimit_first (t : String) (ht : t ≠ "_total") (L T : Nat)
    (limits : List (String × Nat))
    (hL : alistLookup limits t = some L) (hT : alistLookup limits "_total" = some T)
    (h1L : 1 ≤ L) (h1T : 1 ≤ T) (resp : Bool) :
    checkRateLimit t ⟨[], limits⟩ resp = ⟨none, false, singleToolState t 1 limits⟩ := by
  have hb : (t == "_total") = false := by simpa using ht
  have hbump : bumpCount (bumpCount ([] : List (String × Nat)) t) "_total"
      = [(t, 1), ("_total", 1)] := by
    simp [bumpCount, alistLookup, alistSet, List.find?, hb]
  have hc1 : getCount [(t, 1), ("_total", 1)] t = 1 := by
    simp [getCount, alistLookup, List.find?]
  have hc2 : getCount [(t, 1), ("_total", 1)] "_total" = 1 := by
    simp [getCount, alistLookup, List.find?, hb]
  have h1 : ¬ (L < 1) := by omega
  have h2 : ¬ (T < 1) := by omega
  unfold checkRateLimit
  simp only [hbump, hL, hT, hc1, hc2]
  simp [h1, h2, singleToolState]

theorem rateCalls_append (a b : List (String × Bool)) (rl : RLState) :
    rateCalls (a ++ b) rl = rateCalls a rl ++ rateCalls b (rateRunState a rl) := by
  induction a generalizing rl with
  | nil => simp [rateCalls, rateRunState]
  | cons e rest ih => cases e; simp [rateCalls, rateRunState, ih]

theorem rateRunState_append (a b : List (String × Bool)) (rl : RLState) :
    rateRunState (a ++ b) rl = rateRunState b (rateRunState a rl) := by
  induction a generalizing rl with
  | nil => simp [rateRunState]
  | cons e rest ih => cases e; simp [rateRunState, ih]

theorem rateCalls_silent (t : String) (ht : t ≠ "_total") (L T : Nat)
    (limits : List (String × Nat))
    (hL : alistLookup limits t = some L) (hT : alistLookup limits "_total" = some T) :
    ∀ n k, k + n ≤ L → k + n ≤ T →
      rateCalls (List.replicate n (t, true)) (singleToolState t k limits)
          = List.replicate n (false, false)
        ∧ rateRunState (List.replicate n (t, true)) (singleToolState t k limits)
          = singleToolState t (k + n) limits := by
  intro n
  induction n with
  | zero => intro k _ _; exact ⟨rfl, rfl⟩
  | succ n ih =>
    intro k hkL hkT
    have hp := checkRateLimit_pass t ht k L T limits hL hT (by omega) (by omega) true
    have hrec := ih (k + 1) (by omega) (by omega)
    have harith : k + 1 + n = k + (n + 1) := by omega
    constructor
    · simp [List.replicate_succ, rateCalls, hp, hrec.1]
    · simp only [List.replicate_succ, rateRunState, hp]
      rw [hrec.2, harith]

/-- C4 (amended): with per-tool limit L (at least 1) and aggregate limit T
(at least 2L+1), the first L calls of a tool pass with no prompt, call L+1
prompts (the counter is incremented before the comparison) and on continue
the limit doubles to 2L; then the next L-1 calls pass silently and the
(2L+1)th call prompts again. The original claim's "next L calls pass
silently" is off by one. -/
theorem c4_rate_limit_doubling (t : String) (L T : Nat) (limits0 : List (String × Nat))
    (ht : t ≠ "_total") (hL : alistLookup limits0 t = some L)
    (hT : alistLookup limits0 "_total" = some T)
    (h1 : 1 ≤ L) (h2 : 2 * L + 1 ≤ T) :
    rateCalls (List.replicate (2 * L + 1) (t, true)) ⟨[], limits0⟩
        = List.replicate L (false, false) ++ [(true, false)]
            ++ List.replicate (L - 1) (false, false) ++ [(true, false)]
      ∧ alistLookup (rateRunState (List.replicate (L + 1) (t, true)) ⟨[], limits0⟩).limits t
          = some (2 * L) := by
  obtain ⟨n, rfl⟩ : ∃ n, L = n + 1 := ⟨L - 1, by omega⟩
  have hfirst := checkRateLimit_first t ht (n + 1) T limits0 hL hT (by omega) (by omega) true
  have hsil1 := rateCalls_silent t ht (n + 1) T limits0 hL hT n 1 (by omega) (by omega)
  have hhit1 := checkRateLimit_hitPerTool t ht (n + 1) (n + 1) T limits0 hL hT (by omega)
    (by omega) true
  set limits1 := alistSet limits0 t ((n + 1) * 2) with hlim1
  have hL1 : alistLookup limits1 t = some ((n + 1) * 2) := alistLookup_set_self _ _ _
  have hT1 : alistLookup limits1 "_total" = some T := (alistLookup_set_ne _ _ _ _ ht).trans hT
  have hsil2 := rateCalls_silent t ht ((n + 1) * 2) T limits1 hL1 hT1 n (n + 2)
    (by omega) (by omega)
  have hhit2 := checkRateLimit_hitPerTool t ht (2 * n + 2) ((n + 1) * 2) T limits1 hL1 hT1
    (by omega) (by omega) true
  -- run of the first n+1 calls
  have hseg1C : rateCalls (List.replicate (n + 1) (t, true)) ⟨[], limits0⟩
      = List.replicate (n + 1) (false, false) := by
    have := (hsil1).1
    simp [List.replicate_succ, rateCalls, hfirst, this]
  have hseg1S : rateRunState (List.replicate (n + 1) (t, true)) ⟨[], limits0⟩
      = singleToolState t (n + 1) limits0 := by
    have h' := (hsil1).2
    simp only [List.replicate_succ, rateRunState, hfirst]
    rw [h']
    have harith : 1 + n = n + 1 := by omega
    rw [harith]
  -- the prompting call n+2
  have hhit1C : rateCalls [(t, true)] (singleToolState t (n + 1) limits0) = [(true, false)] := by
    simp [rateCalls, hhit1]
  have hhit1S : rateRunState [(t, true)] (singleToolState t (n + 1) limits0)
      = singleToolState t (n + 2) limits1 := by
    simp only [rateRunState, hhit1]
    simp [singleToolState]
  -- the silent n calls after doubling
  have hseg3C : rateCalls (List.replicate n (t, true)) (singleToolState t (n + 2) limits1)
      = List.replicate n (false, false) := hsil2.1
  have hseg3S : rateRunState (List.replicate n (t, true)) (singleToolState t (n + 2) limits1)
      = singleToolState t (2 * n + 2) limits1 := by
    rw [hsil2.2]
    congr 1
    omega
  -- the second prompting call
  have hhit2C : rateCalls [(t, true)] (singleToolState t (2 * n + 2) limits1)
      = [(true, false)] := by
    simp [rateCalls, hhit2]
  have hsplit : List.replicate (2 * (n + 1) + 1) (t, true)
      = List.replicate (n + 1) (t, true) ++ ([(t, true)]
          ++ (List.replicate n (t, true) ++ [(t, true)])) := by
    have he : 2 * (n + 1) + 1 = (n + 1) + (1 + (n + 1)) := by omega
    have he3 : List.replicate (n + 1) (t, true) = List.replicate n (t, true) ++ [(t, true)] := by
      rw [List.replicate_add]
      simp
    rw [he, List.replicate_add]
    congr 1
    rw [List.replicate_add, List.replicate_one]
    congr 1
  constructor
  · rw [hsplit, rateCalls_append, hseg1C, hseg1S, rateCalls_append, hhit1C, hhit1S,
      rateCalls_append, hseg3C, hseg3S, hhit2C]
    have hm : (n + 1 : Nat) - 1 = n := rfl
    rw [hm]
    simp [List.append_assoc]
  · have hrepl : List.replicate (n + 1 + 1) (t, true)
        = List.replicate (n + 1) (t, true) ++ [(t, true)] := by
      rw [List.replicate_add]
      simp
    rw [hrepl, rateRunState_append, hseg1S, hhit1S]
    show alistLookup limits1 t = some (2 * (n + 1))
    rw [hL1]
    congr 1
    omega

theorem checkRateLimit_counts (tool : String) (rl : RLState) (resp : Bool) :
    (checkRateLimit tool rl resp).rl.counts
      = bumpCount (bumpCount rl.counts tool) "_total" := by
  unfold checkRateLimit
  dsimp only
  split
  · rfl
  · split <;> rfl

theorem checkRateLimit_stop_limits (tool : String) (rl : RLState) :
    (checkRateLimit tool rl false).rl.limits = rl.limits := by
  unfold checkRateLimit
  dsimp only
  split
  · rfl
  · rfl

theorem checkRateLimit_promptShown (tool : String) (rl : RLState) (resp : Bool) :
    (checkRateLimit tool rl resp).promptShown
      = ((match alistLookup rl.limits tool with
          | some l => decide (getCount (bumpCount (bumpCount rl.counts tool) "_total") tool > l)
          | none => false)
        || (match alistLookup rl.limits "_total" with
          | some l => decide (getCount (bumpCount (bumpCount rl.counts tool) "_total") "_total" > l)
          | none => false)) := by
  unfold checkRateLimit
  dsimp only
  generalize (match alistLookup rl.limits tool with
      | some l => decide (getCount (bumpCount (bumpCount rl.counts tool) "_total") tool > l)
      | none => false) = A
  generalize (match alistLookup rl.limits "_total" with
      | some l => decide (getCount (bumpCount (bumpCount rl.counts tool) "_total") "_total" > l)
      | none => false) = B
  cases A <;> cases B <;> cases resp <;> simp

theorem checkRateLimit_stop_denyMsg (tool : String) (rl : RLState) :
    (checkRateLimit tool rl false).denyMsg.isSome
      = (checkRateLimit tool rl false).promptShown := by
  unfold checkRateLimit
  dsimp only
  generalize (match alistLookup rl.limits tool with
      | some l => decide (getCount (bumpCount (bumpCount rl.counts tool) "_total") tool > l)
      | none => false) = A
  generalize (match alistLookup rl.limits "_total" with
      | some l => decide (getCount (bumpCount (bumpCount rl.counts tool) "_total") "_total" > l)
      | none => false) = B
  cases A <;> cases B <;> simp

theorem getCount_bump_ge (c : List (String × Nat)) (k k' : String) :
    getCount c k ≤ getCount (bumpCount c k') k := by
  by_cases h : k' = k
  · subst h
    rw [getCount_bump_self]
    omega
  · rw [getCount_bump_ne c k k' h]

theorem checkRateLimit_pass_general (tool : String) (rl : RLState) (resp : Bool)
    (hA : ∀ l, alistLookup rl.limits tool = some l →
        getCount (bumpCount (bumpCount rl.counts tool) "_total") tool ≤ l)
    (hB : ∀ l, alistLookup rl.limits "_total" = some l →
        getCount (bumpCount (bumpCount rl.counts tool) "_total") "_total" ≤ l) :
    checkRateLimit tool rl resp
      = ⟨none, false, ⟨bumpCount (bumpCount rl.counts tool) "_total", rl.limits⟩⟩ := by
  have hA' : (match alistLookup rl.limits tool with
      | some l => decide (getCount (bumpCount (bumpCount rl.counts tool) "_total") tool > l)
      | none => false) = false := by
    cases hx : alistLookup rl.limits tool with
    | none => rfl
    | some l => simp [Nat.not_lt.mpr (hA l hx)]
  have hB' : (match alistLookup rl.limits "_total" with
      | some l => decide (getCount (bumpCount (bumpCount rl.counts tool) "_total") "_total" > l)
      | none => false) = false := by
    cases hx : alistLookup rl.limits "_total" with
    | none => rfl
    | some l => simp [Nat.not_lt.mpr (hB l hx)]
  unfold checkRateLimit
  dsimp only
  rw [hA', hB']
  simp

/-- C3 (amended): a stop answer to the rate-limit prompt denies only the
call that triggered it. The limits are left unchanged, so the turn goes on:
the next call whose counter again exceeds a limit re-shows the prompt, and
a call whose counters are within every applicable limit passes with no
prompt and no denial. -/
theorem c3_stop_denies_one_call :
    (∀ tool rl, (checkRateLimit tool rl false).promptShown = true →
        (checkRateLimit tool rl false).denyMsg.isSome = true
          ∧ (checkRateLimit tool rl false).rl.limits = rl.limits
          ∧ ∀ resp,
              (checkRateLimit tool ((checkRateLimit tool rl false).rl) resp).promptShown = true)
      ∧ (∀ tool rl resp,
          (∀ l, alistLookup rl.limits tool = some l →
              getCount (bumpCount (bumpCount rl.counts tool) "_total") tool ≤ l) →
          (∀ l, alistLookup rl.limits "_total" = some l →
              getCount (bumpCount (bumpCount rl.counts tool) "_total") "_total" ≤ l) →
          (checkRateLimit tool rl resp).denyMsg = none
            ∧ (checkRateLimit tool rl resp).promptShown = false) := by
  constructor
  · intro tool rl h
    refine ⟨by rw [checkRateLimit_stop_denyMsg, h], checkRateLimit_stop_limits tool rl, ?_⟩
    intro resp
    rw [checkRateLimit_promptShown] at h ⊢
    rw [checkRateLimit_counts, checkRateLimit_stop_limits]
    simp only [Bool.or_eq_true] at h
    rcases h with hA | hB
    · cases hx : alistLookup rl.limits tool with
      | none => rw [hx] at hA; exact absurd hA (by simp)
      | some l =>
        rw [hx] at hA
        have hgt := of_decide_eq_true hA
        have hmono := (getCount_bump_ge (bumpCount (bumpCount rl.counts tool) "_total")
          tool tool).trans (getCount_bump_ge _ tool "_total")
        simp only [Bool.or_eq_true]
        left
        exact decide_eq_true (by omega)
    · cases hx : alistLookup rl.limits "_total" with
      | none => rw [hx] at hB; exact absurd hB (by simp)
      | some l =>
        rw [hx] at hB
        have hgt := of_decide_eq_true hB
        have hmono := (getCount_bump_ge (bumpCount (bumpCount rl.counts tool) "_total")
          "_total" tool).trans (getCount_bump_ge _ "_total" "_total")
        simp only [Bool.or_eq_true]
        right
        exact decide_eq_true (by omega)
  · intro tool rl resp hA hB
    rw [checkRateLimit_pass_general tool rl resp hA hB]
    exact ⟨rfl, rfl⟩

/-- C3 counterexample: seven WebFetch calls with default limits (WebFetch
limit 5). Call 6 prompts and the user answers stop: that call is denied.
The claim requires call 7 to be blocked immediately with no prompt, but
call 7 shows the rate-limit prompt again and, on continue, passes. -/
theorem c3_stop_cex :
    rateCalls c3Run rlInit
      = [(false, false), (false, false), (false, false), (false, false), (false, false),
         (true, true), (true, false)] := by
  decide

theorem c3_stop_denies_one_call_witness :
    ((checkRateLimit "WebFetch" (rateRunState (List.replicate 5 ("WebFetch", true)) rlInit)
        false).promptShown = true)
      ∧ ((checkRateLimit "WebFetch" (rateRunState (List.replicate 5 ("WebFetch", true)) rlInit)
            false).denyMsg.isSome = true
        ∧ (checkRateLimit "WebFetch" (rateRunState (List.replicate 5 ("WebFetch", true)) rlInit)
            false).rl.limits = (rateRunState (List.replicate 5 ("WebFetch", true)) rlInit).limits
        ∧ (checkRateLimit "WebFetch"
            ((checkRateLimit "WebFetch" (rateRunState (List.replicate 5 ("WebFetch", true)) rlInit)
              false).rl) true).promptShown = true)
      ∧ ((checkRateLimit "WebFetch" rlInit true).denyMsg = none
        ∧ (checkRateLimit "WebFetch" rlInit true).promptShown = false) := by
  have h : (checkRateLimit "WebFetch" (rateRunState (List.replicate 5 ("WebFetch", true)) rlInit)
      false).promptShown = true := by decide
  have part1 := c3_stop_denies_one_call.1 "WebFetch"
    (rateRunState (List.replicate 5 ("WebFetch", true)) rlInit) h
  have hA : ∀ l, alistLookup rlInit.limits "WebFetch" = some l →
      getCount (bumpCount (bumpCount rlInit.counts "WebFetch") "_total") "WebFetch" ≤ l := by
    intro l hl
    have h5 : alistLookup rlInit.limits "WebFetch" = some 5 := by decide
    have hl5 : l = 5 := by
      rw [h5] at hl
      exact (Option.some.inj hl).symm
    subst hl5
    decide
  have hB : ∀ l, alistLookup rlInit.limits "_total" = some l →
      getCount (bumpCount (bumpCount rlInit.counts "WebFetch") "_total") "_total" ≤ l := by
    intro l hl
    have h50 : alistLookup rlInit.limits "_total" = some 50 := by decide
    have hl50 : l = 50 := by
      rw [h50] at hl
      exact (Option.some.inj hl).symm
    subst hl50
    decide
  have part2 := c3_stop_denies_one_call.2 "WebFetch" rlInit true hA hB
  exact ⟨h, ⟨part1.1, part1.2.1, part1.2.2 true⟩, part2⟩

/-- C4 counterexample: WebFetch with default limit 5 and all prompts
answered continue. Call 6 prompts and the limit doubles to 10; the claim
says the next five calls (7 through 11) pass silently, but call 11
(count 11, limit 10) triggers the prompt again. -/
theorem c4_next_limit_cex :
    (rateCalls (List.replicate 11 ("WebFetch", true)) rlInit).getD 5 (false, true) = (true, false)
      ∧ (rateCalls (List.replicate 11 ("WebFetch", true)) rlInit).getD 10 (false, true)
          = (true, false) := by
  decide

theorem c4_rate_limit_doubling_witness :
    ("WebFetch" ≠ "_total")
      ∧ alistLookup DEFAULT_TOOL_CALL_LIMITS "WebFetch" = some 5
      ∧ alistLookup DEFAULT_TOOL_CALL_LIMITS "_total" = some 50
      ∧ rateCalls (List.replicate 11 ("WebFetch", true)) ⟨[], DEFAULT_TOOL_CALL_LIMITS⟩
          = List.replicate 5 (false, false) ++ [(true, false)]
              ++ List.replicate 4 (false, false) ++ [(true, false)]
      ∧ alistLookup (rateRunState (List.replicate 6 ("WebFetch", true))
            ⟨[], DEFAULT_TOOL_CALL_LIMITS⟩).limits "WebFetch" = some 10 := by
  have h := c4_rate_limit_doubling "WebFetch" 5 50 DEFAULT_TOOL_CALL_LIMITS
    (by decide) (by decide) (by decide) (by decide) (by decide)
  refine ⟨by decide, by decide, by decide, ?_, ?_⟩
  · simpa using h.1
  · simpa using h.2

/-- C5: for every tool in the read-only or safe-UI category, the permission
handler returns Allow with no approval prompt, for every settings
combination and session-approval state (given the per-turn rate check lets
the call through), and the pure classifier shouldAutoApprove returns true
for every settings combination. -/
theorem c5_read_only_allow (toolName : String)
    (h : (READ_ONLY_TOOLS.contains toolName || SAFE_UI_TOOLS.contains toolName) = true) :
    (∀ (input : ToolInput) (st : PermState) (rateContinue : Bool) (resp : ModalResponse),
      (checkRateLimit toolName st.rl rateContinue).denyMsg = none →
        handlePermission toolName input st rateContinue resp
          = ⟨.allow, (checkRateLimit toolName st.rl rateContinue).promptShown, false,
             { st with rl := (checkRateLimit toolName st.rl rateContinue).rl }⟩)
      ∧ (∀ settings, toolPermissions.shouldAutoApprove toolName settings = true) := by
  constructor
  · intro input st rateContinue resp hrate
    unfold handlePermission
    dsimp only
    simp only [hrate, h]
    rfl
  · intro settings
    have hro : toolPermissions.isReadOnlyTool toolName = READ_ONLY_TOOLS.contains toolName := rfl
    have hui : toolPermissions.isObsidianUiTool toolName = SAFE_UI_TOOLS.contains toolName := rfl
    unfold toolPermissions.shouldAutoApprove
    rw [hro, hui]
    simp only [Bool.or_eq_true] at h
    cases hro2 : READ_ONLY_TOOLS.contains toolName with
    | true => simp [hro2]
    | false =>
      have hsu : SAFE_UI_TOOLS.contains toolName = true := by
        rcases h with h | h
        · rw [h] at hro2
          cases hro2
        · exact h
      simp [hro2]
      exact Or.inl (by simpa using hsu)

theorem c5_read_only_allow_witness :
    ((READ_ONLY_TOOLS.contains "Read" || SAFE_UI_TOOLS.contains "Read") = true)
      ∧ ((checkRateLimit "Read" demoPermStateNoBash.rl true).denyMsg = none)
      ∧ handlePermission "Read" ⟨none, none, none⟩ demoPermStateNoBash true ModalResponse.deny
          = ⟨.allow, (checkRateLimit "Read" demoPermStateNoBash.rl true).promptShown, false,
             { demoPermStateNoBash with rl := (checkRateLimit "Read" demoPermStateNoBash.rl true).rl }⟩
      ∧ toolPermissions.shouldAutoApprove "Read"
          ⟨false, true, ["Write"]⟩ = true
      ∧ toolPermissions.shouldAutoApprove "mcp__obsidian__show_notice"
          ⟨true, false, []⟩ = true := by
  have h : (READ_ONLY_TOOLS.contains "Read" || SAFE_UI_TOOLS.contains "Read") = true := by decide
  have hrate : (checkRateLimit "Read" demoPermStateNoBash.rl true).denyMsg = none := by decide
  have h2 : (READ_ONLY_TOOLS.contains "mcp__obsidian__show_notice"
      || SAFE_UI_TOOLS.contains "mcp__obsidian__show_notice") = true := by decide
  exact ⟨h, hrate,
    (c5_read_only_allow "Read" h).1 ⟨none, none, none⟩ demoPermStateNoBash true .deny hrate,
    (c5_read_only_allow "Read" h).2 ⟨false, true, ["Write"]⟩,
    (c5_read_only_allow "mcp__obsidian__show_notice" h2).2 ⟨true, false, []⟩⟩

/-- C1: a Bash invocation whose command matches a blocked dangerous
pattern never reaches the allow branch and never shows the approval
prompt, for every combination of settings (including
requireBashApproval=false and Bash in alwaysAllowedTools) and every
session-approval state; whenever the rate-limit check passes, the decision
is Deny with a reason naming the first matched rule. -/
theorem c1_blocked_bash_hard_deny (command reason : String)
    (hmatch : firstBlockedReason command = some reason) :
    ∀ (cid pth : Option String) (st : PermState) (rateContinue : Bool) (resp : ModalResponse),
      (handlePermission "Bash" ⟨some command, cid, pth⟩ st rateContinue resp).permPromptShown = false
        ∧ (handlePermission "Bash" ⟨some command, cid, pth⟩ st rateContinue resp).decision
            ≠ .allow
        ∧ ((checkRateLimit "Bash" st.rl rateContinue).denyMsg = none →
            (handlePermission "Bash" ⟨some command, cid, pth⟩ st rateContinue resp).decision
              = .denyWith ("Blocked: " ++ reason ++ ". This command is not allowed for security.")) := by
  obtain ⟨e, hfind, hreason⟩ := Option.map_eq_some'.mp hmatch
  intro cid pth st rateContinue resp
  have h1 : (READ_ONLY_TOOLS.contains "Bash" || SAFE_UI_TOOLS.contains "Bash") = false := by decide
  have h2 : ("Bash" == "mcp__obsidian__execute_command") = false := by decide
  have h3 : ("Bash" == "mcp__obsidian__create_note") = false := by decide
  have h4 : SESSION_ONLY_TOOLS.contains "Bash" = true := by decide
  have h5 : WRITE_TOOLS.contains "Bash" = false := by decide
  cases hrate : (checkRateLimit "Bash" st.rl rateContinue).denyMsg with
  | some m =>
    refine ⟨?_, ?_, ?_⟩ <;>
      first
      | (intro hc; rw [hc] at hrate; cases hrate)
      | (unfold handlePermission
         dsimp only
         simp [hrate])
  | none =>
    unfold handlePermission handlePermissionBody withRate
    dsimp only
    simp only [hrate, h1, h2, h3, h4, h5, hfind, Option.getD_some, Bool.false_eq_true,
      Bool.not_true, Bool.false_and, if_false]
    refine ⟨?_, ?_, ?_⟩ <;> simp [hreason]

theorem c1_blocked_bash_hard_deny_witness :
    firstBlockedReason "cat ~/.ssh/id_rsa" = some "SSH private key read"
      ∧ (checkRateLimit "Bash" demoPermStateBash.rl true).denyMsg = none
      ∧ (handlePermission "Bash" ⟨some "cat ~/.ssh/id_rsa", none, none⟩ demoPermStateBash true
          (.approve .always)).permPromptShown = false
      ∧ (handlePermission "Bash" ⟨some "cat ~/.ssh/id_rsa", none, none⟩ demoPermStateBash true
          (.approve .always)).decision ≠ .allow
      ∧ (handlePermission "Bash" ⟨some "cat ~/.ssh/id_rsa", none, none⟩ demoPermStateBash true
          (.approve .always)).decision
          = .denyWith "Blocked: SSH private key read. This command is not allowed for security." := by
  have hmatch : firstBlockedReason "cat ~/.ssh/id_rsa" = some "SSH private key read" := by decide
  have hrate : (checkRateLimit "Bash" demoPermStateBash.rl true).denyMsg = none := by decide
  have happ := c1_blocked_bash_hard_deny "cat ~/.ssh/id_rsa" "SSH private key read" hmatch
    none none demoPermStateBash true (.approve .always)
  refine ⟨hmatch, hrate, happ.1, happ.2.1, ?_⟩
  rw [happ.2.2 hrate]
  decide

theorem bashNotIn_filterSelf (l : List String) :
    "Bash" ∉ l.filter (fun tool => tool != "Bash") := by
  intro hm
  have h2 := (List.mem_filter.mp hm).2
  simp at h2

theorem bashNotIn_hpc (toolName : String) (choice : PermissionChoice) (st : PermState)
    (h : "Bash" ∉ st.settings.alwaysAllowedTools) :
    "Bash" ∉ (handlePermissionChoice toolName choice st).settings.alwaysAllowedTools := by
  cases choice with
  | once => exact h
  | session => exact h
  | always =>
    unfold handlePermissionChoice
    by_cases hs : toolName ∈ SESSION_ONLY_TOOLS
    · simpa [hs] using h
    · by_cases hc : toolName ∈ st.settings.alwaysAllowedTools
      · simpa [hs, hc] using h
      · have hne : toolName ≠ "Bash" := by simpa [SESSION_ONLY_TOOLS] using hs
        simp [hs, hc, List.mem_append]
        exact ⟨h, fun hbn => hne hbn.symm⟩

theorem bashNotIn_ra (toolName : String) (risk : Risk) (msg : String) (st : PermState)
    (resp : ModalResponse) (h : "Bash" ∉ st.settings.alwaysAllowedTools) :
    "Bash" ∉ (requireApproval toolName risk msg st resp).state.settings.alwaysAllowedTools := by
  unfold requireApproval
  split
  · exact h
  · split
    · exact bashNotIn_hpc _ _ _ h
    · exact h

theorem bashNotIn_body (toolName : String) (input : ToolInput) (st2 : PermState)
    (resp : ModalResponse) (h2 : "Bash" ∉ st2.settings.alwaysAllowedTools) :
    "Bash" ∉ (handlePermissionBody toolName input st2 resp).state.settings.alwaysAllowedTools := by
  unfold handlePermissionBody
  dsimp only
  repeat' split
  all_goals
    first
      | exact h2
      | exact bashNotIn_ra _ _ _ _ _ h2

theorem bashNotIn_hp (toolName : String) (input : ToolInput) (st : PermState)
    (rateContinue : Bool) (resp : ModalResponse)
    (h : "Bash" ∉ st.settings.alwaysAllowedTools) :
    "Bash" ∉ (handlePermission toolName input st rateContinue resp).state.settings.alwaysAllowedTools := by
  have hfil : "Bash" ∉ st.settings.alwaysAllowedTools.filter (fun tool => tool != toolName) :=
    fun hm => h (List.mem_filter.mp hm).1
  unfold handlePermission
  dsimp only
  cases hrate : (checkRateLimit toolName st.rl rateContinue).denyMsg with
  | some m => simpa using h
  | none =>
    by_cases hro : (READ_ONLY_TOOLS.contains toolName || SAFE_UI_TOOLS.contains toolName) = true
    · rw [if_pos hro]
      simpa using h
    · rw [if_neg hro]
      simp only [withRate]
      by_cases hmig : (SESSION_ONLY_TOOLS.contains toolName
          && st.settings.alwaysAllowedTools.contains toolName) = true
      · rw [if_pos hmig]
        exact bashNotIn_body _ _ _ _ hfil
      · rw [if_neg hmig]
        exact bashNotIn_body _ _ _ _ h

/-- C2: the durable always-allowed set never acquires Bash: an
approve-always choice for Bash is downgraded to session-only membership,
any sequence of permission requests and choices preserves the absence of
Bash from the durable set, and a Bash request whose rate check passes
removes a pre-existing Bash entry from the durable set. -/
theorem c2_bash_never_persisted :
    (∀ seq st, "Bash" ∉ st.settings.alwaysAllowedTools →
        "Bash" ∉ (runPerm seq st).settings.alwaysAllowedTools)
      ∧ (∀ st, (handlePermissionChoice "Bash" .always st).settings.alwaysAllowedTools
            = st.settings.alwaysAllowedTools
          ∧ (handlePermissionChoice "Bash" .always st).approvedTools
            = addToSet st.approvedTools "Bash")
      ∧ (∀ (input : ToolInput) (st : PermState) (rateContinue : Bool) (resp : ModalResponse),
          (checkRateLimit "Bash" st.rl rateContinue).denyMsg = none →
          "Bash" ∉ (handlePermission "Bash" input st rateContinue
              resp).state.settings.alwaysAllowedTools) := by
  refine ⟨?_, ?_, ?_⟩
  · intro seq
    induction seq with
    | nil => intro st h; exact h
    | cons e rest ih =>
      intro st h
      obtain ⟨toolName, input, rateContinue, resp⟩ := e
      exact ih _ (bashNotIn_hp toolName input st rateContinue resp h)
  · intro st
    constructor
    · unfold handlePermissionChoice
      simp [SESSION_ONLY_TOOLS]
    · unfold handlePermissionChoice
      simp [SESSION_ONLY_TOOLS]
  · intro input st rateContinue resp hrate
    unfold handlePermission
    dsimp only
    simp only [hrate]
    have hro : ¬ ((READ_ONLY_TOOLS.contains "Bash" || SAFE_UI_TOOLS.contains "Bash") = true) := by
      decide
    rw [if_neg hro]
    simp only [withRate]
    by_cases hmig : (SESSION_ONLY_TOOLS.contains "Bash"
        && st.settings.alwaysAllowedTools.contains "Bash") = true
    · rw [if_pos hmig]
      exact bashNotIn_body _ _ _ _ (bashNotIn_filterSelf _)
    · rw [if_neg hmig]
      have hnotin : "Bash" ∉ st.settings.alwaysAllowedTools := by
        intro hmem
        apply hmig
        simp [SESSION_ONLY_TOOLS, hmem]
      exact bashNotIn_body _ _ _ _ hnotin

theorem c2_bash_never_persisted_witness :
    ("Bash" ∉ demoPermStateNoBash.settings.alwaysAllowedTools)
      ∧ ("Bash" ∉ (runPerm demoSeq demoPermStateNoBash).settings.alwaysAllowedTools)
      ∧ ((handlePermissionChoice "Bash" .always demoPermStateNoBash).settings.alwaysAllowedTools
            = demoPermStateNoBash.settings.alwaysAllowedTools
        ∧ (handlePermissionChoice "Bash" .always demoPermStateNoBash).approvedTools
            = addToSet demoPermStateNoBash.approvedTools "Bash")
      ∧ ((checkRateLimit "Bash" demoPermStateBash.rl true).denyMsg = none)
      ∧ ("Bash" ∉ (handlePermission "Bash" ⟨some "ls", none, none⟩ demoPermStateBash true
          (.approve .always)).state.settings.alwaysAllowedTools) := by
  have h0 : "Bash" ∉ demoPermStateNoBash.settings.alwaysAllowedTools := by decide
  have hrate : (checkRateLimit "Bash" demoPermStateBash.rl true).denyMsg = none := by decide
  exact ⟨h0, c2_bash_never_persisted.1 demoSeq demoPermStateNoBash h0,
    c2_bash_never_persisted.2.1 demoPermStateNoBash, hrate,
    c2_bash_never_persisted.2.2 ⟨some "ls", none, none⟩ demoPermStateBash true
      (.approve .always) hrate⟩
